import Mathlib

/-!
Verification of the resilient proxied-request dispatcher
(`src/services/apiClient.ts`, function `executeProxiedRequest`).

The TypeScript source is shallowly embedded below.  Effects are made
explicit parameters:

* randomness (`sort(() => 0.5 - Math.random())`) is injected as the
  functions `shufflePool` / `shuffleServers`;
* the ambient storage lookups (`localStorage` personal token,
  `sessionStorage` shared pool, the proxy-URL selection) are the
  parameters `personalAuthToken`, `pool` and `defaultServerUrl`;
* the awaited admission-gate RPC is the parameter `gateResult`
  (an `await` of a rejected promise aborts the dispatch);
* each attempt's `fetch`/`response.text()` is the trace `net : Nat →
  FetchOutcome`, indexed by the loop counter `i`.

Strings are modelled through their character lists (`String.data`);
`toLowerCase`, `includes` and `slice(-6)` are re-implemented on that
representation.  JSON response bodies are modelled by the fragment of
JSON the dispatcher inspects: strings and string-keyed objects (a
non-string value in a `message` field would make the original code
throw a `TypeError` inside `.toLowerCase()`, a path no analysed claim
touches, so it is not represented).
-/

namespace ApiClient

/-- The fragment of parsed JSON the dispatcher inspects: strings and
objects. -/
inductive JsValue where
  | jstr (s : String)
  | jobj (fields : List (String × JsValue))

/-- First binding of a key in an object's field list (parsed JSON
objects are assumed to have distinct keys). -/
def lookupField : List (String × JsValue) → String → Option JsValue
  | [], _ => none
  | (k, v) :: rest, key => if k == key then some v else lookupField rest key

/-- JavaScript property access `v[key]` on a parsed JSON value:
`undefined` (here `none`) unless `v` is an object with that key. -/
def jsField : JsValue → String → Option JsValue
  | .jobj fields, key => lookupField fields key
  | .jstr _, _ => none

/-- `x || ...` applied to a candidate message: a nonempty string is
truthy and is kept, everything else falls through. -/
def msgString : Option JsValue → Option String
  | some (.jstr s) => if s == "" then none else some s
  | _ => none

/-- `String.prototype.toLowerCase`, modelled characterwise. -/
def lowerStr (s : String) : String := ⟨s.data.map Char.toLower⟩

/-- Does `l` start with `pat`? (helper for `includes`). -/
def startsWithCL : List Char → List Char → Bool
  | [], _ => true
  | _ :: _, [] => false
  | c :: cs, d :: ds => c == d && startsWithCL cs ds

/-- Does `pat` occur as a contiguous run in the list? -/
def containsCL (pat : List Char) : List Char → Bool
  | [] => startsWithCL pat []
  | l@(_ :: rest) => startsWithCL pat l || containsCL pat rest

/-- `s.includes(pat)`. -/
def containsSub (s pat : String) : Bool := containsCL pat.data s.data

/-- JavaScript truthiness of an optional string (`undefined` and `""`
are falsy). -/
def jsTruthyOpt : Option String → Bool
  | some s => s != ""
  | none => false

/-- `o || d` for an optional string. -/
def jsOrOpt (o : Option String) (d : String) : String :=
  match o with
  | some s => if s == "" then d else s
  | none => d

/-- `token.slice(-6)`: the last six characters (the whole string when
shorter). -/
def sliceLastSix (s : String) : String := ⟨s.data.drop (s.data.length - 6)⟩

/-- Source label of an attempt (`'Specific' | 'Personal' | 'Pool'`). -/
inductive Source where
  | Specific
  | Personal
  | Pool
deriving DecidableEq

/-- One entry of the shared token pool, as stored in session state.
`createdAt` is the millisecond timestamp `new Date(createdAt).getTime()`
used by the recency sort. -/
structure PoolEntry where
  token : String
  createdAt : Int
deriving DecidableEq

/-- `interface RequestAttempt`. -/
structure RequestAttempt where
  token : String
  serverUrl : String
  source : Source
deriving DecidableEq

/-- Dedup identity of an attempt:
`` `${attempt.token.slice(-6)}@${attempt.serverUrl}` ``. -/
def attemptKey (a : RequestAttempt) : String :=
  sliceLastSix a.token ++ "@" ++ a.serverUrl

/-- `addAttempt`: push the attempt and record its key unless the key
was already used.  The state is the pair `(attempts, usedAttempts)`. -/
def addAttempt (st : List RequestAttempt × List String) (a : RequestAttempt) :
    List RequestAttempt × List String :=
  if attemptKey a ∈ st.2 then st else (st.1 ++ [a], st.2 ++ [attemptKey a])

/-- Stable insertion (newest first) used to model the recency sort
`parsed.sort((a, b) => new Date(b.createdAt).getTime() - new Date(a.createdAt).getTime())`. -/
def insertByNewest (e : PoolEntry) : List PoolEntry → List PoolEntry
  | [] => [e]
  | x :: xs => if e.createdAt > x.createdAt then e :: x :: xs else x :: insertByNewest e xs

/-- `getSharedTokensFromSession` sorting step: newest first, stable
(JavaScript `Array.prototype.sort` is stable). -/
def sortByNewest (l : List PoolEntry) : List PoolEntry :=
  l.foldl (fun acc e => insertByNewest e acc) []

/-- `getPersonalToken`: the stored `user.personalAuthToken` passes the
truthiness test (`if (user && user.personalAuthToken)`). -/
def getPersonalToken (stored : Option String) : Option String :=
  match stored with
  | some t => if t == "" then none else some t
  | none => none

/-- Scenario C of the strategy-list construction (pool mode), returning
the `(attempts, usedAttempts)` state. -/
def poolModeAttempts (pool : List PoolEntry) (currentServerUrl : String)
    (overrideServerUrl : Option String) (fallbackServers : List String)
    (shufflePool : List PoolEntry → List PoolEntry)
    (shuffleServers : List String → List String) :
    List RequestAttempt × List String :=
  let allSharedTokens := sortByNewest pool
  let newestPoolTokens := allSharedTokens.take 10
  let shuffledPool := shufflePool newestPoolTokens
  let st1 := shuffledPool.foldl
    (fun st t => addAttempt st ⟨t.token, currentServerUrl, Source.Pool⟩) ([], [])
  if jsTruthyOpt overrideServerUrl then st1
  else
    let otherServers := fallbackServers.filter (fun s => s != currentServerUrl)
    let backupServers := (shuffleServers otherServers).take 2
    backupServers.foldl
      (fun st backupServer =>
        (shuffledPool.take 3).foldl
          (fun st t => addAttempt st ⟨t.token, backupServer, Source.Pool⟩) st)
      st1

/-- Step 2 of `executeProxiedRequest`: build the attempt strategy list.
`personal` is `getPersonalToken()`'s result. -/
def buildAttempts (specificToken : Option String) (personal : Option String)
    (pool : List PoolEntry) (currentServerUrl : String)
    (overrideServerUrl : Option String) (fallbackServers : List String)
    (shufflePool : List PoolEntry → List PoolEntry)
    (shuffleServers : List String → List String) : List RequestAttempt :=
  if jsTruthyOpt specificToken then
    -- SCENARIO A: a truthy `specificToken` is some nonempty string, so
    -- `getD ""` below always yields that string.
    let tok := specificToken.getD ""
    let sourceLabel := if personal = some tok then Source.Personal else Source.Specific
    (addAttempt ([], []) ⟨tok, currentServerUrl, sourceLabel⟩).1
  else
    match personal with
    | some p =>
      -- SCENARIO B: personal token only.
      (addAttempt ([], []) ⟨p, currentServerUrl, Source.Personal⟩).1
    | none =>
      -- SCENARIO C: hybrid pool mode.
      (poolModeAttempts pool currentServerUrl overrideServerUrl fallbackServers
        shufflePool shuffleServers).1

/-- What one attempt's network interaction produced: a settled HTTP
response (with `none` for a body that fails `JSON.parse`), or a
transport-level rejection of `fetch`/`response.text()`. -/
inductive FetchOutcome where
  | response (status : Nat) (body : Option JsValue)
  | netError (msg : String)

/-- `response.ok`: status in the range 200–299. -/
def isOkStatus (status : Nat) : Bool :=
  decide (200 ≤ status) && decide (status ≤ 299)

/-- The synthetic body used when `JSON.parse` fails:
`{ error: { message: "Proxy returned non-JSON (<status>)" } }`. -/
def nonJsonBody (status : Nat) : JsValue :=
  .jobj [("error", .jobj [("message",
    .jstr ("Proxy returned non-JSON (" ++ toString status ++ ")"))])]

/-- The `data` value of an attempt (parsed body, or the synthetic
non-JSON object). -/
def payloadOf : FetchOutcome → JsValue
  | .response status body => body.getD (nonJsonBody status)
  | .netError _ => .jstr ""

/-- `data.error?.message || data.message || "API call failed (<status>)"`. -/
def extractErrorMessage (data : JsValue) (status : Nat) : String :=
  match msgString ((jsField data "error").bind (fun e => jsField e "message")) with
  | some m => m
  | none =>
    match msgString (jsField data "message") with
    | some m => m
    | none => "API call failed (" ++ toString status ++ ")"

/-- Line 207: `status === 400 || lowerMsg.includes('safety') ||
lowerMsg.includes('blocked')`. -/
def isTerminalFailure (status : Nat) (errorMessage : String) : Bool :=
  status == 400 || containsSub (lowerStr errorMessage) "safety"
    || containsSub (lowerStr errorMessage) "blocked"

/-- Line 228: `errMsg.includes('[400]') ||
errMsg.toLowerCase().includes('safety') ||
errMsg.toLowerCase().includes('blocked')`. -/
def isSafetyErrorMsg (errMsg : String) : Bool :=
  containsSub errMsg "[400]" || containsSub (lowerStr errMsg) "safety"
    || containsSub (lowerStr errMsg) "blocked"

/-- How the `try` block of one loop iteration ends. -/
inductive TryOutcome where
  | returned (data : JsValue)
  | caught (msg : String)
  | continued

/-- The `try` block of one loop iteration (lines 180–222). -/
def tryAttempt (o : FetchOutcome) (isLastAttempt : Bool) : TryOutcome :=
  match o with
  | .netError msg => .caught msg
  | .response status body =>
    let data := body.getD (nonJsonBody status)
    if isOkStatus status then .returned data
    else
      let errorMessage := extractErrorMessage data status
      if isTerminalFailure status errorMessage then
        .caught ("[" ++ toString status ++ "] " ++ errorMessage)
      else if isLastAttempt then .caught errorMessage
      else .continued

/-- What one full loop iteration decides, after the `catch` block
(lines 223–257).  `throwNow` carries whether a failure log record is
emitted. -/
inductive StepDecision where
  | ret (data : JsValue)
  | throwNow (msg : String) (logIt : Bool)
  | next

/-- One full loop iteration: the `try` block followed, on a caught
error, by the `catch` block.  `sp` is the truthiness of
`specificToken`. -/
def stepDecision (o : FetchOutcome) (isLastAttempt : Bool) (sp : Bool) : StepDecision :=
  match tryAttempt o isLastAttempt with
  | .returned data => .ret data
  | .continued => .next
  | .caught errMsg =>
    if isSafetyErrorMsg errMsg then .throwNow errMsg false
    else if isLastAttempt then .throwNow errMsg (!sp)
    else .next

/-- How a dispatch ends at the caller: a resolved
`{ data, successfulToken, successfulServerUrl }`, or a thrown error
(identified by its message). -/
inductive LoopEnd where
  | success (data : JsValue) (successfulToken successfulServerUrl : String)
  | thrown (msg : String)

/-- Result of the execution loop: how it ended, how many network calls
were issued, and whether `addLogEntry` ran. -/
structure LoopResult where
  outcome : LoopEnd
  calls : Nat
  logged : Bool

/-- The strategy loop (step 3, lines 176–258).  `i` is the absolute
index into the trace `net`.  The `[]` base case models the trailing
`throw lastError` with its initial `new Error("Unknown error")`; it is
unreachable for the nonempty plans the dispatcher runs. -/
def runLoop (net : Nat → FetchOutcome) (sp : Bool) :
    List RequestAttempt → Nat → LoopResult
  | [], _ => ⟨.thrown "Unknown error", 0, false⟩
  | a :: rest, i =>
    match stepDecision (net i) rest.isEmpty sp with
    | .ret data => ⟨.success data a.token a.serverUrl, 1, false⟩
    | .throwNow msg logIt => ⟨.thrown msg, 1, logIt⟩
    | .next =>
      let r := runLoop net sp rest (i + 1)
      ⟨r.outcome, r.calls + 1, r.logged⟩

/-- `logContext.includes('GENERATE') || logContext.includes('RECIPE')`. -/
def isGenerationRequest (logContext : String) : Bool :=
  containsSub logContext "GENERATE" || containsSub logContext "RECIPE"

/-- All inputs of one dispatch, ambient state and effect traces made
explicit. -/
structure DispatchArgs where
  logContext : String
  specificToken : Option String
  overrideServerUrl : Option String
  /-- `getVeoProxyUrl()` / `getImagenProxyUrl()` for the current
  environment. -/
  defaultServerUrl : String
  /-- The stored `user.personalAuthToken`, if any. -/
  personalAuthToken : Option String
  /-- The parsed `veoAuthTokens` session list, unsorted. -/
  pool : List PoolEntry
  /-- `PROXY_SERVER_URLS`. -/
  fallbackServers : List String
  shufflePool : List PoolEntry → List PoolEntry
  shuffleServers : List String → List String
  /-- Settlement of `await supabase.rpc('request_generation_slot', …)`. -/
  gateResult : Except String Unit
  /-- Settlement of the `i`-th attempt's network interaction. -/
  net : Nat → FetchOutcome

/-- `overrideServerUrl || (serviceType === 'veo' ? getVeoProxyUrl() : getImagenProxyUrl())`. -/
def currentServer (a : DispatchArgs) : String :=
  jsOrOpt a.overrideServerUrl a.defaultServerUrl

/-- The attempt plan one dispatch builds. -/
def attemptPlan (a : DispatchArgs) : List RequestAttempt :=
  buildAttempts a.specificToken (getPersonalToken a.personalAuthToken) a.pool
    (currentServer a) a.overrideServerUrl a.fallbackServers a.shufflePool
    a.shuffleServers

/-- Steps 2–3 of the dispatcher: build the plan, fail fast when it is
empty, otherwise run the loop. -/
def runDispatchCore (a : DispatchArgs) : LoopResult :=
  let attempts := attemptPlan a
  if attempts.isEmpty then
    ⟨.thrown "No authentication tokens found. Please claim a token in Settings.", 0, false⟩
  else runLoop a.net (jsTruthyOpt a.specificToken) attempts 0

/-- Observable result of one dispatch: the admission-gate RPC issued
(cooldown seconds and server URL), the ending, the number of network
calls, and whether a failure log record was emitted. -/
structure DispatchResult where
  gateCalled : Option (Nat × String)
  outcome : LoopEnd
  calls : Nat
  logged : Bool

/-- `executeProxiedRequest`, with all effects explicit. -/
def executeProxiedRequest (a : DispatchArgs) : DispatchResult :=
  let cur := currentServer a
  if isGenerationRequest a.logContext then
    match a.gateResult with
    | .error e => ⟨some (10, cur), .thrown e, 0, false⟩
    | .ok _ =>
      let lr := runDispatchCore a
      ⟨some (10, cur), lr.outcome, lr.calls, lr.logged⟩
  else
    let lr := runDispatchCore a
    ⟨none, lr.outcome, lr.calls, lr.logged⟩

/-- Did the attempt's network call return a success HTTP status? -/
def okOutcome : FetchOutcome → Bool
  | .response status _ => isOkStatus status
  | .netError _ => false

/-- The failure message an unsuccessful attempt produces (transport
message, or the message extracted from the non-success body). -/
def attemptFailMsg : FetchOutcome → String
  | .netError msg => msg
  | .response status body =>
    extractErrorMessage (body.getD (nonJsonBody status)) status

/-- The spec's retriable classification of an attempt's outcome: a
transport failure, or a non-success status that is not terminal. -/
def isRetriableOutcome : FetchOutcome → Bool
  | .netError _ => true
  | .response status body =>
    !isOkStatus status &&
      !isTerminalFailure status
        (extractErrorMessage (body.getD (nonJsonBody status)) status)

/-- A transport error's message does not match the catch-block safety
pattern (HTTP responses are unconstrained). -/
def catchSafe : FetchOutcome → Bool
  | .netError msg => !isSafetyErrorMsg msg
  | .response _ _ => true

/-- Default attempt used with `List.getD` in theorem statements. -/
def defaultAttempt : RequestAttempt := ⟨"", "", Source.Pool⟩

/-- Invariant of the `(attempts, usedAttempts)` build state: attempt
keys are pairwise distinct and every pushed key was recorded. -/
def PlanInv (st : List RequestAttempt × List String) : Prop :=
  st.1.Pairwise (fun x y => attemptKey x ≠ attemptKey y)
    ∧ ∀ b ∈ st.1, attemptKey b ∈ st.2

/-- Spec-side dedup (§4.3 "an Attempt is discarded if its
(token-fingerprint, server) pair was already added"): keep the first
occurrence of each key. -/
def specDedup (seen : List String) : List RequestAttempt → List RequestAttempt
  | [] => []
  | x :: rest =>
    if attemptKey x ∈ seen then specDedup seen rest
    else x :: specDedup (seen ++ [attemptKey x]) rest

/-- Spec-side Phase 1 (§4.3): one attempt per shuffled pool credential
against the primary server. -/
def specPhase1 (shuffled : List PoolEntry) (primary : String) : List RequestAttempt :=
  shuffled.map (fun t => ⟨t.token, primary, Source.Pool⟩)

/-- Spec-side Phase 2 (§4.3): for each backup server, one attempt for
each of the first 3 shuffled pool credentials. -/
def specPhase2 (shuffled : List PoolEntry) (backups : List String) : List RequestAttempt :=
  backups.flatMap (fun s => (shuffled.take 3).map (fun t => ⟨t.token, s, Source.Pool⟩))

/-! ## Concrete dispatch inputs used to instantiate the theorems -/

/-- A neutral dispatch: non-generation log context, no credentials,
identity shuffles. -/
def baseArgs : DispatchArgs where
  logContext := "TEST"
  specificToken := none
  overrideServerUrl := none
  defaultServerUrl := "S0"
  personalAuthToken := none
  pool := []
  fallbackServers := ["S0", "S1", "S2"]
  shufflePool := id
  shuffleServers := id
  gateResult := .ok ()
  net := fun _ => .netError "unreached"

/-- Pinned token, first call succeeds with a JSON body. -/
def wSuccess : DispatchArgs :=
  { baseArgs with
    specificToken := some "tokenA"
    net := fun _ => .response 200 (some (.jstr "ok")) }

/-- Pinned token, first call returns HTTP 400 with an error body. -/
def wTerminal : DispatchArgs :=
  { baseArgs with
    specificToken := some "tokenA"
    net := fun _ => .response 400
      (some (.jobj [("error", .jobj [("message", .jstr "bad")])])) }

/-- Two pool tokens on an overridden server; every call fails with a
plain retriable 500. -/
def wExhaust : DispatchArgs :=
  { baseArgs with
    overrideServerUrl := some "SX"
    pool := [⟨"token1", 2⟩, ⟨"token2", 1⟩]
    net := fun _ => .response 500 (some (.jobj [("message", .jstr "server down")])) }

/-- Two pool tokens; every call is a transport error whose message
contains "blocked". -/
def ceExhaust : DispatchArgs :=
  { baseArgs with
    overrideServerUrl := some "SX"
    pool := [⟨"token1", 2⟩, ⟨"token2", 1⟩]
    net := fun _ => .netError "connection blocked by peer" }

/-- Two pool tokens; the first call is a plain transport error. -/
def wTransport : DispatchArgs :=
  { baseArgs with
    overrideServerUrl := some "SX"
    pool := [⟨"token1", 2⟩, ⟨"token2", 1⟩]
    net := fun j => if j == 0 then .netError "dns failure"
      else .netError "second failure" }

/-- Two pool tokens; the first call is a transport error whose message
contains "blocked". -/
def ceTransport : DispatchArgs :=
  { baseArgs with
    overrideServerUrl := some "SX"
    pool := [⟨"token1", 2⟩, ⟨"token2", 1⟩]
    net := fun _ => .netError "request blocked" }

/-- A generation request whose admission-gate RPC fails. -/
def wGate : DispatchArgs :=
  { baseArgs with
    logContext := "VEO GENERATE"
    gateResult := .error "gate down" }

/-- Pool mode with two tokens, no override: primary plus two backup
servers. -/
def wPool : DispatchArgs :=
  { baseArgs with
    pool := [⟨"token1", 2⟩, ⟨"token2", 1⟩]
    net := fun _ => .response 500 (some (.jobj [("message", .jstr "server down")])) }

/-- Pinned-token mode with a populated pool. -/
def wSingle : DispatchArgs :=
  { baseArgs with
    specificToken := some "tokenZ"
    pool := [⟨"token1", 2⟩] }

/-- No credentials anywhere. -/
def wEmpty : DispatchArgs := baseArgs

/-- Pinned token; the call succeeds with a body that fails JSON
parsing. -/
def wNonJson : DispatchArgs :=
  { baseArgs with
    specificToken := some "tokenA"
    net := fun _ => .response 201 none }

/-! ## String lemmas -/

theorem lowerStr_append (s t : String) : lowerStr (s ++ t) = lowerStr s ++ lowerStr t := by
  apply String.ext
  show ((s ++ t).data.map Char.toLower) = (lowerStr s ++ lowerStr t).data
  rw [String.data_append, String.data_append, List.map_append]
  rfl

theorem containsCL_of_startsWith (pat l : List Char) (h : startsWithCL pat l = true) :
    containsCL pat l = true := by
  cases l with
  | nil => simpa [containsCL] using h
  | cons c rest => simp [containsCL, h]

theorem containsCL_append_left (pat pre l : List Char) (h : containsCL pat l = true) :
    containsCL pat (pre ++ l) = true := by
  induction pre with
  | nil => simpa using h
  | cons c pre ih => simp [containsCL, ih]

theorem containsSub_append_left (pre s pat : String) (h : containsSub s pat = true) :
    containsSub (pre ++ s) pat = true := by
  unfold containsSub at h ⊢
  rw [String.data_append]
  exact containsCL_append_left _ _ _ h

/-- A caught terminal failure `[<status>] <msg>` always matches the
catch-block safety pattern, so it is rethrown without logging. -/
theorem isSafetyErrorMsg_of_terminal (status : Nat) (msg : String)
    (h : isTerminalFailure status msg = true) :
    isSafetyErrorMsg ("[" ++ toString status ++ "] " ++ msg) = true := by
  unfold isTerminalFailure at h
  simp only [Bool.or_eq_true] at h
  rcases h with (h | h) | h
  · have hst : status = 400 := by simpa using h
    subst hst
    rfl
  · have hmid : containsSub (lowerStr ("[" ++ toString status ++ "] " ++ msg)) "safety" = true := by
      rw [lowerStr_append]
      exact containsSub_append_left _ _ _ h
    simp [isSafetyErrorMsg, hmid]
  · have hmid : containsSub (lowerStr ("[" ++ toString status ++ "] " ++ msg)) "blocked" = true := by
      rw [lowerStr_append]
      exact containsSub_append_left _ _ _ h
    simp [isSafetyErrorMsg, hmid]

/-! ## Step lemmas: one loop iteration -/

theorem stepDecision_ok (o : FetchOutcome) (isLast sp : Bool) (h : okOutcome o = true) :
    stepDecision o isLast sp = .ret (payloadOf o) := by
  cases o with
  | response status body =>
    simp only [okOutcome] at h
    simp [stepDecision, tryAttempt, h, payloadOf]
  | netError m => simp [okOutcome] at h

theorem stepDecision_response_terminal (status : Nat) (body : Option JsValue)
    (isLast sp : Bool) (hok : isOkStatus status = false)
    (hterm : isTerminalFailure status
      (extractErrorMessage (body.getD (nonJsonBody status)) status) = true) :
    stepDecision (.response status body) isLast sp =
      .throwNow ("[" ++ toString status ++ "] "
        ++ extractErrorMessage (body.getD (nonJsonBody status)) status) false := by
  simp [stepDecision, tryAttempt, hok, hterm, isSafetyErrorMsg_of_terminal _ _ hterm]

theorem stepDecision_response_retriable (status : Nat) (body : Option JsValue) (sp : Bool)
    (hok : isOkStatus status = false)
    (hterm : isTerminalFailure status
      (extractErrorMessage (body.getD (nonJsonBody status)) status) = false) :
    stepDecision (.response status body) false sp = .next := by
  simp [stepDecision, tryAttempt, hok, hterm]

theorem stepDecision_response_retriable_last (status : Nat) (body : Option JsValue) (sp : Bool)
    (hok : isOkStatus status = false)
    (hterm : isTerminalFailure status
      (extractErrorMessage (body.getD (nonJsonBody status)) status) = false) :
    stepDecision (.response status body) true sp =
      (if isSafetyErrorMsg (extractErrorMessage (body.getD (nonJsonBody status)) status)
       then .throwNow (extractErrorMessage (body.getD (nonJsonBody status)) status) false
       else .throwNow (extractErrorMessage (body.getD (nonJsonBody status)) status) (!sp)) := by
  simp [stepDecision, tryAttempt, hok, hterm]

theorem stepDecision_netError (m : String) (isLast sp : Bool) :
    stepDecision (.netError m) isLast sp =
      (if isSafetyErrorMsg m then .throwNow m false
       else if isLast then .throwNow m (!sp) else .next) := rfl

/-! ## Loop lemmas -/

theorem runLoop_calls_le (net : Nat → FetchOutcome) (sp : Bool) :
    ∀ (l : List RequestAttempt) (k : Nat), (runLoop net sp l k).calls ≤ l.length := by
  intro l
  induction l with
  | nil => intro k; simp [runLoop]
  | cons a rest ih =>
    intro k
    cases hs : stepDecision (net k) rest.isEmpty sp with
    | ret data => simp [runLoop, hs]
    | throwNow msg logIt => simp [runLoop, hs]
    | next =>
      have := ih (k + 1)
      simp only [runLoop, hs, List.length_cons]
      omega

theorem runLoop_calls_pos (net : Nat → FetchOutcome) (sp : Bool)
    (a : RequestAttempt) (rest : List RequestAttempt) (k : Nat) :
    1 ≤ (runLoop net sp (a :: rest) k).calls := by
  cases hs : stepDecision (net k) rest.isEmpty sp with
  | ret data => simp [runLoop, hs]
  | throwNow msg logIt => simp [runLoop, hs]
  | next => simp [runLoop, hs]

/-- If the loop issued more than `i` calls, its first `i` iterations
all continued: the run agrees with the run of the suffix `l.drop i`,
with `i` extra calls in front. -/
theorem runLoop_skip (net : Nat → FetchOutcome) (sp : Bool) :
    ∀ (i : Nat) (l : List RequestAttempt) (k : Nat),
      i < (runLoop net sp l k).calls →
      (runLoop net sp l k).outcome = (runLoop net sp (l.drop i) (k + i)).outcome ∧
      (runLoop net sp l k).logged = (runLoop net sp (l.drop i) (k + i)).logged ∧
      (runLoop net sp l k).calls = (runLoop net sp (l.drop i) (k + i)).calls + i := by
  intro i
  induction i with
  | zero => intro l k _; simp
  | succ i ih =>
    intro l k h
    cases l with
    | nil => simp [runLoop] at h
    | cons a rest =>
      cases hs : stepDecision (net k) rest.isEmpty sp with
      | ret data =>
        have hc : (runLoop net sp (a :: rest) k).calls = 1 := by simp [runLoop, hs]
        omega
      | throwNow msg logIt =>
        have hc : (runLoop net sp (a :: rest) k).calls = 1 := by simp [runLoop, hs]
        omega
      | next =>
        have ho : (runLoop net sp (a :: rest) k).outcome
            = (runLoop net sp rest (k + 1)).outcome := by simp [runLoop, hs]
        have hc : (runLoop net sp (a :: rest) k).calls
            = (runLoop net sp rest (k + 1)).calls + 1 := by simp [runLoop, hs]
        have hl : (runLoop net sp (a :: rest) k).logged
            = (runLoop net sp rest (k + 1)).logged := by simp [runLoop, hs]
        have hlt : i < (runLoop net sp rest (k + 1)).calls := by omega
        obtain ⟨h1, h2, h3⟩ := ih rest (k + 1) hlt
        have hidx : k + 1 + i = k + (i + 1) := by omega
        rw [hidx] at h1 h2 h3
        rw [List.drop_succ_cons]
        exact ⟨ho.trans h1, hl.trans h2, by omega⟩

/-- The fast-fail branch of step 2: an empty plan throws the
configuration error without reaching the loop. -/
theorem runDispatchCore_empty (a : DispatchArgs) (h : attemptPlan a = []) :
    runDispatchCore a =
      ⟨.thrown "No authentication tokens found. Please claim a token in Settings.",
       0, false⟩ := by
  unfold runDispatchCore
  rw [h]
  rfl

theorem runDispatchCore_of_ne (a : DispatchArgs) (h : attemptPlan a ≠ []) :
    runDispatchCore a
      = runLoop a.net (jsTruthyOpt a.specificToken) (attemptPlan a) 0 := by
  unfold runDispatchCore
  rw [if_neg]
  simpa [List.isEmpty_iff] using h

theorem execute_of_gate_passed (a : DispatchArgs)
    (h : isGenerationRequest a.logContext = false ∨ a.gateResult = .ok ()) :
    (executeProxiedRequest a).outcome = (runDispatchCore a).outcome ∧
    (executeProxiedRequest a).calls = (runDispatchCore a).calls ∧
    (executeProxiedRequest a).logged = (runDispatchCore a).logged := by
  unfold executeProxiedRequest
  cases hg : isGenerationRequest a.logContext with
  | false => exact ⟨rfl, rfl, rfl⟩
  | true =>
    rcases h with h | h
    · rw [hg] at h; cases h
    · rw [h]
      exact ⟨rfl, rfl, rfl⟩

theorem execute_gate_error (a : DispatchArgs) (e : String)
    (hg : isGenerationRequest a.logContext = true) (hgr : a.gateResult = .error e) :
    executeProxiedRequest a = ⟨some (10, currentServer a), .thrown e, 0, false⟩ := by
  unfold executeProxiedRequest
  rw [hg, hgr]
  rfl

/-- If the dispatcher issued at least one network call, the admission
gate passed, the plan is nonempty, and the observable fields are those
of the strategy loop over the plan. -/
theorem execute_reaches_loop (a : DispatchArgs)
    (h : 0 < (executeProxiedRequest a).calls) :
    attemptPlan a ≠ [] ∧
    (executeProxiedRequest a).outcome
      = (runLoop a.net (jsTruthyOpt a.specificToken) (attemptPlan a) 0).outcome ∧
    (executeProxiedRequest a).calls
      = (runLoop a.net (jsTruthyOpt a.specificToken) (attemptPlan a) 0).calls ∧
    (executeProxiedRequest a).logged
      = (runLoop a.net (jsTruthyOpt a.specificToken) (attemptPlan a) 0).logged := by
  have hgate : isGenerationRequest a.logContext = false ∨ a.gateResult = .ok () := by
    cases hg : isGenerationRequest a.logContext with
    | false => exact Or.inl rfl
    | true =>
      cases hgr : a.gateResult with
      | ok u => exact Or.inr rfl
      | error e =>
        rw [execute_gate_error a e hg hgr] at h
        simp at h
  obtain ⟨ho, hc, hl⟩ := execute_of_gate_passed a hgate
  have hne : attemptPlan a ≠ [] := by
    intro hempty
    rw [hc, runDispatchCore_empty a hempty] at h
    simp at h
  rw [ho, hc, hl, runDispatchCore_of_ne a hne]
  exact ⟨hne, rfl, rfl, rfl⟩

/-- If the dispatcher issued call `i`, the run agrees with the loop
restarted at the plan suffix from position `i`. -/
theorem execute_suffix (a : DispatchArgs) (i : Nat)
    (hi : i < (executeProxiedRequest a).calls) :
    i < (attemptPlan a).length ∧
    (executeProxiedRequest a).outcome
      = (runLoop a.net (jsTruthyOpt a.specificToken) ((attemptPlan a).drop i) i).outcome ∧
    (executeProxiedRequest a).calls
      = (runLoop a.net (jsTruthyOpt a.specificToken) ((attemptPlan a).drop i) i).calls + i ∧
    (executeProxiedRequest a).logged
      = (runLoop a.net (jsTruthyOpt a.specificToken) ((attemptPlan a).drop i) i).logged := by
  obtain ⟨hne, ho, hc, hl⟩ := execute_reaches_loop a (by omega)
  have hiL : i < (runLoop a.net (jsTruthyOpt a.specificToken) (attemptPlan a) 0).calls := by
    rw [← hc]; exact hi
  obtain ⟨so, slog, sc⟩ :=
    runLoop_skip a.net (jsTruthyOpt a.specificToken) i (attemptPlan a) 0 hiL
  rw [Nat.zero_add] at so slog sc
  refine ⟨?_, ho.trans so, hc.trans sc, hl.trans slog⟩
  exact lt_of_lt_of_le hiL (runLoop_calls_le _ _ _ _)

/-- Helper shared by the success-shaped claims: the loop returns at
the first attempt whose network call has a success status. -/
theorem execute_success_at (a : DispatchArgs) (i : Nat)
    (hi : i < (executeProxiedRequest a).calls)
    (hok : okOutcome (a.net i) = true) :
    (executeProxiedRequest a).outcome
      = .success (payloadOf (a.net i))
          ((attemptPlan a).getD i defaultAttempt).token
          ((attemptPlan a).getD i defaultAttempt).serverUrl
    ∧ (executeProxiedRequest a).calls = i + 1 := by
  obtain ⟨hlen, ho, hc, _⟩ := execute_suffix a i hi
  have hdrop : (attemptPlan a).drop i
      = (attemptPlan a)[i] :: (attemptPlan a).drop (i + 1) :=
    List.drop_eq_getElem_cons hlen
  have hstep := stepDecision_ok (a.net i) ((attemptPlan a).drop (i + 1)).isEmpty
    (jsTruthyOpt a.specificToken) hok
  have hsuf : runLoop a.net (jsTruthyOpt a.specificToken) ((attemptPlan a).drop i) i
      = ⟨.success (payloadOf (a.net i)) ((attemptPlan a)[i]).token
          ((attemptPlan a)[i]).serverUrl, 1, false⟩ := by
    rw [hdrop]
    simp [runLoop, hstep]
  rw [ho, hc, hsuf, List.getD_eq_getElem _ _ hlen]
  exact ⟨rfl, Nat.add_comm 1 i⟩

/-- C1: when some issued network call returns a success HTTP status,
the dispatcher returns at the first such attempt, with exactly that
attempt's token and server URL, and issues no later attempt
(`calls = i + 1`). -/
theorem execute_returns_first_success (a : DispatchArgs) (i : Nat)
    (hi : i < (executeProxiedRequest a).calls)
    (hok : okOutcome (a.net i) = true)
    (_hfirst : ∀ j, j < i → okOutcome (a.net j) = false) :
    (executeProxiedRequest a).outcome
      = .success (payloadOf (a.net i))
          ((attemptPlan a).getD i defaultAttempt).token
          ((attemptPlan a).getD i defaultAttempt).serverUrl
    ∧ (executeProxiedRequest a).calls = i + 1 :=
  execute_success_at a i hi hok

/-- C10: a success-status response whose body fails to parse as JSON
still resolves as a success, carrying the synthetic
`{ error: { message: "Proxy returned non-JSON (<status>)" } }` object
as its data. -/
theorem execute_success_nonjson_body (a : DispatchArgs) (i status : Nat)
    (hi : i < (executeProxiedRequest a).calls)
    (hnet : a.net i = .response status none)
    (hst : isOkStatus status = true) :
    (executeProxiedRequest a).outcome
      = .success (nonJsonBody status)
          ((attemptPlan a).getD i defaultAttempt).token
          ((attemptPlan a).getD i defaultAttempt).serverUrl
    ∧ (executeProxiedRequest a).calls = i + 1 := by
  have hok : okOutcome (a.net i) = true := by rw [hnet]; simpa [okOutcome] using hst
  have hpay : payloadOf (a.net i) = nonJsonBody status := by rw [hnet]; rfl
  have h := execute_success_at a i hi hok
  rw [hpay] at h
  exact h

/-- C2: a non-success HTTP response is terminal — thrown at once as
`[<status>] <message>`, with no further attempt and no log record —
exactly when the status is 400 (the client bad-request status) or the
extracted message contains "safety" or "blocked" (case-insensitively);
any other non-success status lets the loop continue to the next
attempt when one remains. -/
theorem execute_nonsuccess_classification (a : DispatchArgs) (i status : Nat)
    (body : Option JsValue)
    (hi : i < (executeProxiedRequest a).calls)
    (hnet : a.net i = .response status body)
    (hst : isOkStatus status = false) :
    (isTerminalFailure status
        (extractErrorMessage (body.getD (nonJsonBody status)) status) = true →
      (executeProxiedRequest a).outcome
        = .thrown ("[" ++ toString status ++ "] "
            ++ extractErrorMessage (body.getD (nonJsonBody status)) status)
      ∧ (executeProxiedRequest a).calls = i + 1
      ∧ (executeProxiedRequest a).logged = false)
    ∧ (isTerminalFailure status
        (extractErrorMessage (body.getD (nonJsonBody status)) status) = false →
      i + 1 < (attemptPlan a).length → i + 1 < (executeProxiedRequest a).calls) := by
  obtain ⟨hlen, ho, hc, hl⟩ := execute_suffix a i hi
  have hdrop : (attemptPlan a).drop i
      = (attemptPlan a)[i] :: (attemptPlan a).drop (i + 1) :=
    List.drop_eq_getElem_cons hlen
  constructor
  · intro hterm
    have hsd : stepDecision (a.net i) ((attemptPlan a).drop (i + 1)).isEmpty
        (jsTruthyOpt a.specificToken)
        = .throwNow ("[" ++ toString status ++ "] "
            ++ extractErrorMessage (body.getD (nonJsonBody status)) status) false := by
      rw [hnet]
      exact stepDecision_response_terminal status body _ _ hst hterm
    have hsuf : runLoop a.net (jsTruthyOpt a.specificToken) ((attemptPlan a).drop i) i
        = ⟨.thrown ("[" ++ toString status ++ "] "
            ++ extractErrorMessage (body.getD (nonJsonBody status)) status), 1, false⟩ := by
      rw [hdrop]
      simp [runLoop, hsd]
    rw [ho, hc, hl, hsuf]
    exact ⟨rfl, Nat.add_comm 1 i, rfl⟩
  · intro hterm hlen2
    have hE : ((attemptPlan a).drop (i + 1)).isEmpty = false := by
      rw [List.drop_eq_getElem_cons hlen2]
      rfl
    have hsd : stepDecision (a.net i) ((attemptPlan a).drop (i + 1)).isEmpty
        (jsTruthyOpt a.specificToken) = .next := by
      rw [hnet, hE]
      exact stepDecision_response_retriable status body _ hst hterm
    have hpos : 1 ≤ (runLoop a.net (jsTruthyOpt a.specificToken)
        ((attemptPlan a).drop (i + 1)) (i + 1)).calls := by
      rw [List.drop_eq_getElem_cons hlen2]
      exact runLoop_calls_pos _ _ _ _ _
    have hsufc : (runLoop a.net (jsTruthyOpt a.specificToken)
          ((attemptPlan a).drop i) i).calls
        = (runLoop a.net (jsTruthyOpt a.specificToken)
            ((attemptPlan a).drop (i + 1)) (i + 1)).calls + 1 := by
      rw [hdrop]
      simp [runLoop, hsd]
    rw [hc, hsufc]
    omega

/-- C4: a transport-level failure (the fetch itself rejects) whose
message does not match the catch-block safety pattern lets the loop
continue to the next attempt — or, on the last attempt, is surfaced to
the caller (with the exhaustion log record when no token was pinned);
but a transport error whose message matches the pattern is rethrown at
once, ending the dispatch. -/
theorem execute_transport_error_policy (a : DispatchArgs) (i : Nat) (m : String)
    (hi : i < (executeProxiedRequest a).calls)
    (hnet : a.net i = .netError m) :
    (isSafetyErrorMsg m = true →
      (executeProxiedRequest a).outcome = .thrown m
      ∧ (executeProxiedRequest a).calls = i + 1
      ∧ (executeProxiedRequest a).logged = false)
    ∧ (isSafetyErrorMsg m = false →
      (i + 1 < (attemptPlan a).length → i + 1 < (executeProxiedRequest a).calls)
      ∧ (i + 1 = (attemptPlan a).length →
          (executeProxiedRequest a).outcome = .thrown m
          ∧ (executeProxiedRequest a).calls = i + 1
          ∧ (executeProxiedRequest a).logged = !(jsTruthyOpt a.specificToken))) := by
  obtain ⟨hlen, ho, hc, hl⟩ := execute_suffix a i hi
  have hdrop : (attemptPlan a).drop i
      = (attemptPlan a)[i] :: (attemptPlan a).drop (i + 1) :=
    List.drop_eq_getElem_cons hlen
  constructor
  · intro hsafe
    have hsd : stepDecision (a.net i) ((attemptPlan a).drop (i + 1)).isEmpty
        (jsTruthyOpt a.specificToken) = .throwNow m false := by
      rw [hnet, stepDecision_netError]
      simp [hsafe]
    have hsuf : runLoop a.net (jsTruthyOpt a.specificToken) ((attemptPlan a).drop i) i
        = ⟨.thrown m, 1, false⟩ := by
      rw [hdrop]
      simp [runLoop, hsd]
    rw [ho, hc, hl, hsuf]
    exact ⟨rfl, Nat.add_comm 1 i, rfl⟩
  · intro hsafe
    constructor
    · intro hlen2
      have hE : ((attemptPlan a).drop (i + 1)).isEmpty = false := by
        rw [List.drop_eq_getElem_cons hlen2]
        rfl
      have hsd : stepDecision (a.net i) ((attemptPlan a).drop (i + 1)).isEmpty
          (jsTruthyOpt a.specificToken) = .next := by
        rw [hnet, hE, stepDecision_netError]
        simp [hsafe]
      have hpos : 1 ≤ (runLoop a.net (jsTruthyOpt a.specificToken)
          ((attemptPlan a).drop (i + 1)) (i + 1)).calls := by
        rw [List.drop_eq_getElem_cons hlen2]
        exact runLoop_calls_pos _ _ _ _ _
      have hsufc : (runLoop a.net (jsTruthyOpt a.specificToken)
            ((attemptPlan a).drop i) i).calls
          = (runLoop a.net (jsTruthyOpt a.specificToken)
              ((attemptPlan a).drop (i + 1)) (i + 1)).calls + 1 := by
        rw [hdrop]
        simp [runLoop, hsd]
      rw [hc, hsufc]
      omega
    · intro hlast
      have hnil : (attemptPlan a).drop (i + 1) = [] := by
        rw [hlast]
        exact List.drop_length _
      have hE : ((attemptPlan a).drop (i + 1)).isEmpty = true := by
        rw [hnil]
        rfl
      have hsd : stepDecision (a.net i) ((attemptPlan a).drop (i + 1)).isEmpty
          (jsTruthyOpt a.specificToken)
          = .throwNow m (!(jsTruthyOpt a.specificToken)) := by
        rw [hnet, hE, stepDecision_netError]
        simp [hsafe]
      have hsuf : runLoop a.net (jsTruthyOpt a.specificToken) ((attemptPlan a).drop i) i
          = ⟨.thrown m, 1, !(jsTruthyOpt a.specificToken)⟩ := by
        rw [hdrop]
        simp [runLoop, hsd]
      rw [ho, hc, hl, hsuf]
      exact ⟨rfl, Nat.add_comm 1 i, rfl⟩

/-- When every attempt of a nonempty plan fails retriably, no transport
error matches the catch-block safety pattern, and the last failure
message does not match it either, the loop walks the whole plan and
throws the last message, logging iff no token was pinned. -/
theorem runLoop_all_retriable (net : Nat → FetchOutcome) (sp : Bool) :
    ∀ (l : List RequestAttempt) (k : Nat), l ≠ [] →
      (∀ j, j < l.length → isRetriableOutcome (net (k + j)) = true) →
      (∀ j, j < l.length → catchSafe (net (k + j)) = true) →
      isSafetyErrorMsg (attemptFailMsg (net (k + l.length - 1))) = false →
      runLoop net sp l k
        = ⟨.thrown (attemptFailMsg (net (k + l.length - 1))), l.length, !sp⟩ := by
  intro l
  induction l with
  | nil => intro k h; exact absurd rfl h
  | cons a rest ih =>
    intro k _ hr hcs hlast
    cases rest with
    | nil =>
      have hr0 := hr 0 (by simp)
      simp only [Nat.add_zero] at hr0
      have hk : k + [a].length - 1 = k := by simp
      rw [hk] at hlast ⊢
      have hsd : stepDecision (net k) true sp
          = .throwNow (attemptFailMsg (net k)) (!sp) := by
        cases ho : net k with
        | netError m =>
          rw [ho] at hlast
          simp only [attemptFailMsg] at hlast ⊢
          rw [stepDecision_netError]
          simp [hlast]
        | response status body =>
          rw [ho] at hr0 hlast
          simp only [isRetriableOutcome, Bool.and_eq_true, Bool.not_eq_true'] at hr0
          obtain ⟨hok, hterm⟩ := hr0
          simp only [attemptFailMsg] at hlast ⊢
          rw [stepDecision_response_retriable_last status body sp hok hterm]
          simp [hlast]
      simp [runLoop, hsd]
    | cons b rest' =>
      have hr0 := hr 0 (by simp)
      have hcs0 := hcs 0 (by simp)
      simp only [Nat.add_zero] at hr0 hcs0
      have hnext : stepDecision (net k) false sp = .next := by
        cases ho : net k with
        | netError m =>
          rw [ho] at hcs0
          simp only [catchSafe, Bool.not_eq_true'] at hcs0
          rw [stepDecision_netError]
          simp [hcs0]
        | response status body =>
          rw [ho] at hr0
          simp only [isRetriableOutcome, Bool.and_eq_true, Bool.not_eq_true'] at hr0
          obtain ⟨hok, hterm⟩ := hr0
          exact stepDecision_response_retriable status body sp hok hterm
      have heq : runLoop net sp (a :: b :: rest') k
          = ⟨(runLoop net sp (b :: rest') (k + 1)).outcome,
             (runLoop net sp (b :: rest') (k + 1)).calls + 1,
             (runLoop net sp (b :: rest') (k + 1)).logged⟩ := by
        simp [runLoop, hnext]
      have hrs : ∀ j, j < (b :: rest').length →
          isRetriableOutcome (net (k + 1 + j)) = true := by
        intro j hj
        have := hr (j + 1) (by simpa using Nat.succ_lt_succ hj)
        simpa [Nat.add_assoc, Nat.add_comm 1 j] using this
      have hcss : ∀ j, j < (b :: rest').length →
          catchSafe (net (k + 1 + j)) = true := by
        intro j hj
        have := hcs (j + 1) (by simpa using Nat.succ_lt_succ hj)
        simpa [Nat.add_assoc, Nat.add_comm 1 j] using this
      have hlasts : isSafetyErrorMsg
          (attemptFailMsg (net (k + 1 + (b :: rest').length - 1))) = false := by
        have hidx : k + 1 + (b :: rest').length - 1
            = k + (a :: b :: rest').length - 1 := by
          simp only [List.length_cons]
          omega
        rw [hidx]
        exact hlast
      have ih' := ih (k + 1) (by simp) hrs hcss hlasts
      rw [heq, ih']
      have hidx : k + 1 + (b :: rest').length - 1
          = k + (a :: b :: rest').length - 1 := by
        simp only [List.length_cons]
        omega
      rw [hidx]
      simp only [List.length_cons]

/-- C3 (amended): when every attempt of the plan fails with a
retriable classification, no transport error's message matches the
catch-block pattern ("[400]"/"safety"/"blocked"), the last failure
message does not match it either, and the admission gate passed, the
dispatcher makes exactly `len(plan)` network calls, throws the last
attempt's failure message, and emits exactly one failure log record
iff no specificToken was pinned. -/
theorem execute_all_retriable_exhaustion (a : DispatchArgs)
    (hgate : isGenerationRequest a.logContext = false ∨ a.gateResult = .ok ())
    (hne : attemptPlan a ≠ [])
    (hr : ∀ j, j < (attemptPlan a).length → isRetriableOutcome (a.net j) = true)
    (hcs : ∀ j, j < (attemptPlan a).length → catchSafe (a.net j) = true)
    (hlast : isSafetyErrorMsg
      (attemptFailMsg (a.net ((attemptPlan a).length - 1))) = false) :
    (executeProxiedRequest a).calls = (attemptPlan a).length
    ∧ (executeProxiedRequest a).outcome
        = .thrown (attemptFailMsg (a.net ((attemptPlan a).length - 1)))
    ∧ (executeProxiedRequest a).logged = !(jsTruthyOpt a.specificToken) := by
  obtain ⟨ho, hc, hl⟩ := execute_of_gate_passed a hgate
  rw [runDispatchCore_of_ne a hne] at ho hc hl
  have hrun := runLoop_all_retriable a.net (jsTruthyOpt a.specificToken)
    (attemptPlan a) 0 hne
    (by intro j hj; simpa using hr j hj)
    (by intro j hj; simpa using hcs j hj)
    (by simpa using hlast)
  rw [hrun] at ho hc hl
  refine ⟨hc, ?_, hl⟩
  rw [ho]
  simp

/-- C5: a dispatch whose log context marks a generation request awaits
the admission gate (`request_generation_slot`, cooldown 10 seconds,
keyed by the chosen primary server URL) before any attempt, and a gate
failure aborts the dispatch with zero network calls; a non-generation
dispatch never calls the gate and its result does not depend on the
gate at all. -/
theorem execute_admission_gate (a : DispatchArgs) :
    (isGenerationRequest a.logContext = true →
      (executeProxiedRequest a).gateCalled = some (10, currentServer a)
      ∧ ∀ e, a.gateResult = .error e →
          (executeProxiedRequest a).outcome = .thrown e
          ∧ (executeProxiedRequest a).calls = 0)
    ∧ (isGenerationRequest a.logContext = false →
      (executeProxiedRequest a).gateCalled = none
      ∧ ∀ g, executeProxiedRequest { a with gateResult := g }
          = executeProxiedRequest a) := by
  constructor
  · intro hg
    constructor
    · unfold executeProxiedRequest
      rw [hg]
      cases a.gateResult with
      | error e => rfl
      | ok u => rfl
    · intro e hgr
      rw [execute_gate_error a e hg hgr]
      exact ⟨rfl, rfl⟩
  · intro hg
    constructor
    · unfold executeProxiedRequest
      rw [hg]
      rfl
    · intro g
      have h1 : executeProxiedRequest a
          = ⟨none, (runDispatchCore a).outcome, (runDispatchCore a).calls,
             (runDispatchCore a).logged⟩ := by
        unfold executeProxiedRequest
        rw [hg]
        rfl
      have h2 : executeProxiedRequest { a with gateResult := g }
          = ⟨none, (runDispatchCore a).outcome, (runDispatchCore a).calls,
             (runDispatchCore a).logged⟩ := by
        unfold executeProxiedRequest
        have hg' : isGenerationRequest ({ a with gateResult := g } : DispatchArgs).logContext
            = false := hg
        rw [hg']
        rfl
      rw [h1, h2]

/-- C9: an empty attempt plan makes the dispatcher throw the
"no credentials" configuration error with zero network calls and no
log record. -/
theorem execute_empty_plan (a : DispatchArgs)
    (hgate : isGenerationRequest a.logContext = false ∨ a.gateResult = .ok ())
    (hempty : attemptPlan a = []) :
    (executeProxiedRequest a).outcome
      = .thrown "No authentication tokens found. Please claim a token in Settings."
    ∧ (executeProxiedRequest a).calls = 0
    ∧ (executeProxiedRequest a).logged = false := by
  obtain ⟨ho, hc, hl⟩ := execute_of_gate_passed a hgate
  rw [runDispatchCore_empty a hempty] at ho hc hl
  exact ⟨ho, hc, hl⟩

/-- C8: the single-server modes.  A truthy `specificToken` yields a
one-entry plan with exactly that credential on the primary server
(labelled Personal iff it equals the stored personal token) no matter
what the pool holds; otherwise a configured personal credential yields
a one-entry plan with that credential labelled Personal — no pool
credentials and no backup servers. -/
theorem attemptPlan_single_modes (a : DispatchArgs) :
    (∀ t, a.specificToken = some t → t ≠ "" →
      attemptPlan a
        = [⟨t, currentServer a,
            if getPersonalToken a.personalAuthToken = some t then Source.Personal
            else Source.Specific⟩])
    ∧ (jsTruthyOpt a.specificToken = false →
      ∀ p, getPersonalToken a.personalAuthToken = some p →
        attemptPlan a = [⟨p, currentServer a, Source.Personal⟩]) := by
  constructor
  · intro t hst hne
    unfold attemptPlan buildAttempts
    rw [hst]
    have ht : jsTruthyOpt (some t) = true := by
      simp [jsTruthyOpt]
      exact hne
    rw [ht]
    simp [addAttempt]
  · intro hsp p hp
    unfold attemptPlan buildAttempts
    rw [hsp, hp]
    simp [addAttempt]

/-! ## Plan construction lemmas -/

theorem addAttempt_inv (st : List RequestAttempt × List String) (x : RequestAttempt)
    (h : PlanInv st) : PlanInv (addAttempt st x) := by
  unfold addAttempt
  by_cases hk : attemptKey x ∈ st.2
  · rw [if_pos hk]
    exact h
  · rw [if_neg hk]
    obtain ⟨hp, hm⟩ := h
    constructor
    · rw [List.pairwise_append]
      refine ⟨hp, List.pairwise_singleton _ _, ?_⟩
      intro y hy z hz
      rw [List.mem_singleton] at hz
      subst hz
      intro heq
      exact hk (heq ▸ hm y hy)
    · intro b hb
      rcases List.mem_append.1 hb with hb | hb
      · exact List.mem_append_left _ (hm b hb)
      · rw [List.mem_singleton] at hb
        subst hb
        exact List.mem_append_right _ (List.mem_singleton_self _)

theorem foldl_preserves {α σ : Type} (p : σ → Prop) (g : σ → α → σ)
    (hg : ∀ st x, p st → p (g st x)) :
    ∀ (l : List α) (st : σ), p st → p (l.foldl g st) := by
  intro l
  induction l with
  | nil => intro st h; exact h
  | cons x xs ih => intro st h; exact ih _ (hg st x h)

theorem poolModeAttempts_inv (pool : List PoolEntry) (cur : String)
    (ov : Option String) (fb : List String)
    (shp : List PoolEntry → List PoolEntry) (shs : List String → List String) :
    PlanInv (poolModeAttempts pool cur ov fb shp shs) := by
  have base : PlanInv ([], []) := ⟨List.Pairwise.nil, by simp⟩
  unfold poolModeAttempts
  have h1 : PlanInv ((shp ((sortByNewest pool).take 10)).foldl
      (fun st t => addAttempt st ⟨t.token, cur, Source.Pool⟩) ([], [])) :=
    foldl_preserves PlanInv _ (fun st x h => addAttempt_inv st _ h) _ _ base
  by_cases hov : jsTruthyOpt ov = true
  · simp only [hov, if_true]
    exact h1
  · have hov' : jsTruthyOpt ov = false := by
      revert hov
      cases jsTruthyOpt ov <;> simp
    simp only [hov', Bool.false_eq_true, if_false]
    refine foldl_preserves PlanInv _ ?_ _ _ h1
    intro st b hb
    exact foldl_preserves PlanInv _ (fun st x h => addAttempt_inv st _ h) _ _ hb

/-- C6: no two entries of any constructed attempt plan share the
(token-fingerprint, serverUrl) key, the fingerprint being the token's
last six characters — so a pool holding duplicate token values yields
at most one attempt per distinct (fingerprint, server) pair. -/
theorem attemptPlan_key_pairwise (a : DispatchArgs) :
    (attemptPlan a).Pairwise (fun x y => attemptKey x ≠ attemptKey y) := by
  have base : PlanInv ([], []) := ⟨List.Pairwise.nil, by simp⟩
  unfold attemptPlan buildAttempts
  by_cases hsp : jsTruthyOpt a.specificToken = true
  · simp only [hsp, if_true]
    exact (addAttempt_inv _ _ base).1
  · have hsp' : jsTruthyOpt a.specificToken = false := by
      revert hsp
      cases jsTruthyOpt a.specificToken <;> simp
    simp only [hsp', Bool.false_eq_true, if_false]
    cases hp : getPersonalToken a.personalAuthToken with
    | some p => exact (addAttempt_inv _ _ base).1
    | none => exact (poolModeAttempts_inv _ _ _ _ _ _).1

theorem foldl_addAttempt_acc :
    ∀ (l : List RequestAttempt) (acc : List RequestAttempt) (seen : List String),
      (l.foldl addAttempt (acc, seen)).1 = acc ++ specDedup seen l := by
  intro l
  induction l with
  | nil => intro acc seen; simp [specDedup]
  | cons x rest ih =>
    intro acc seen
    by_cases hk : attemptKey x ∈ seen
    · have hx : addAttempt (acc, seen) x = (acc, seen) := by
        simp [addAttempt, hk]
      simp only [List.foldl_cons, hx, ih, specDedup, if_pos hk]
    · have hx : addAttempt (acc, seen) x = (acc ++ [x], seen ++ [attemptKey x]) := by
        simp [addAttempt, hk]
      simp only [List.foldl_cons, hx, ih, specDedup, if_neg hk]
      simp

theorem foldl_backups (toks : List PoolEntry) :
    ∀ (bs : List String) (st : List RequestAttempt × List String),
      bs.foldl (fun st b =>
          toks.foldl (fun st t => addAttempt st ⟨t.token, b, Source.Pool⟩) st) st
        = (bs.flatMap (fun b => toks.map
            (fun t => (⟨t.token, b, Source.Pool⟩ : RequestAttempt)))).foldl addAttempt st := by
  intro bs
  induction bs with
  | nil => intro st; simp
  | cons b bs ih =>
    intro st
    simp only [List.foldl_cons, List.flatMap_cons, List.foldl_append, List.foldl_map]
    rw [ih]

/-- C7: in pool mode (no truthy `specificToken`, no personal
credential) the plan equals the spec's description — the pool sorted
newest-first, truncated to the 10 most recent and shuffled once;
Phase 1 pairs each shuffled credential with the primary server, and
Phase 2 (only without a server override) pairs each of at most two
shuffled backup servers with the first three shuffled credentials; the
concatenation is deduplicated by (fingerprint, server) key. -/
theorem attemptPlan_pool_mode (a : DispatchArgs)
    (hsp : jsTruthyOpt a.specificToken = false)
    (hpers : getPersonalToken a.personalAuthToken = none) :
    attemptPlan a
      = specDedup []
          (specPhase1 (a.shufflePool ((sortByNewest a.pool).take 10)) (currentServer a)
            ++ (if jsTruthyOpt a.overrideServerUrl then []
                else specPhase2 (a.shufflePool ((sortByNewest a.pool).take 10))
                  ((a.shuffleServers (a.fallbackServers.filter
                    (fun s => s != currentServer a))).take 2))) := by
  unfold attemptPlan buildAttempts
  simp only [hsp, Bool.false_eq_true, if_false, hpers]
  unfold poolModeAttempts
  have hst1 : (a.shufflePool ((sortByNewest a.pool).take 10)).foldl
      (fun st t => addAttempt st ⟨t.token, currentServer a, Source.Pool⟩) ([], [])
      = (specPhase1 (a.shufflePool ((sortByNewest a.pool).take 10))
          (currentServer a)).foldl addAttempt ([], []) := by
    unfold specPhase1
    rw [List.foldl_map]
  by_cases hov : jsTruthyOpt a.overrideServerUrl = true
  · simp only [hov, if_true]
    rw [hst1, foldl_addAttempt_acc]
    simp
  · have hov' : jsTruthyOpt a.overrideServerUrl = false := by
      revert hov
      cases jsTruthyOpt a.overrideServerUrl <;> simp
    simp only [hov', Bool.false_eq_true, if_false]
    rw [foldl_backups, hst1, ← List.foldl_append, foldl_addAttempt_acc]
    simp [specPhase2]

/-! ## Counterexamples to the unamended claims -/

/-- Counterexample to C3 as stated: both attempts of the two-entry
plan fail with a retriable (transport) classification and no token is
pinned, yet only one network call is made and no failure log record is
emitted, because the transport error's message contains "blocked" and
the catch block rethrows it as if terminal. -/
theorem exhaustion_claim_counterexample :
    (attemptPlan ceExhaust).length = 2
    ∧ isRetriableOutcome (ceExhaust.net 0) = true
    ∧ isRetriableOutcome (ceExhaust.net 1) = true
    ∧ jsTruthyOpt ceExhaust.specificToken = false
    ∧ (executeProxiedRequest ceExhaust).calls = 1
    ∧ (executeProxiedRequest ceExhaust).logged = false := by
  decide

/-- Counterexample to C4 as stated: the first attempt fails at the
transport level, a second attempt remains in the plan, yet the loop
does not continue — the error message contains "blocked", so the catch
block throws it immediately after a single network call. -/
theorem transport_claim_counterexample :
    (attemptPlan ceTransport).length = 2
    ∧ ceTransport.net 0 = .netError "request blocked"
    ∧ (executeProxiedRequest ceTransport).calls = 1
    ∧ (executeProxiedRequest ceTransport).outcome = .thrown "request blocked" := by
  refine ⟨by decide, rfl, by decide, rfl⟩

/-! ## Witnesses -/

theorem execute_returns_first_success_witness :
    (executeProxiedRequest wSuccess).outcome
      = .success (.jstr "ok") "tokenA" "S0"
    ∧ (executeProxiedRequest wSuccess).calls = 1 :=
  execute_returns_first_success wSuccess 0 (by decide) (by decide)
    (fun j hj => absurd hj (Nat.not_lt_zero j))

theorem execute_nonsuccess_classification_witness :
    (executeProxiedRequest wTerminal).outcome = .thrown "[400] bad"
    ∧ (executeProxiedRequest wTerminal).calls = 1
    ∧ (executeProxiedRequest wTerminal).logged = false :=
  (execute_nonsuccess_classification wTerminal 0 400
    (some (.jobj [("error", .jobj [("message", .jstr "bad")])]))
    (by decide) rfl (by decide)).1 (by decide)

theorem execute_all_retriable_exhaustion_witness :
    (executeProxiedRequest wExhaust).calls = 2
    ∧ (executeProxiedRequest wExhaust).outcome = .thrown "server down"
    ∧ (executeProxiedRequest wExhaust).logged = true :=
  execute_all_retriable_exhaustion wExhaust (Or.inl (by decide)) (by decide)
    (by decide) (by decide) (by decide)

theorem execute_transport_error_policy_witness :
    1 < (executeProxiedRequest wTransport).calls :=
  ((execute_transport_error_policy wTransport 0 "dns failure"
    (by decide) rfl).2 (by decide)).1 (by decide)

theorem execute_admission_gate_witness :
    (executeProxiedRequest wGate).gateCalled = some (10, "S0")
    ∧ (executeProxiedRequest wGate).outcome = .thrown "gate down"
    ∧ (executeProxiedRequest wGate).calls = 0 :=
  ⟨((execute_admission_gate wGate).1 (by decide)).1,
   (((execute_admission_gate wGate).1 (by decide)).2 "gate down" rfl).1,
   (((execute_admission_gate wGate).1 (by decide)).2 "gate down" rfl).2⟩

theorem attemptPlan_pool_mode_witness :
    attemptPlan wPool
      = [⟨"token1", "S0", Source.Pool⟩, ⟨"token2", "S0", Source.Pool⟩,
         ⟨"token1", "S1", Source.Pool⟩, ⟨"token2", "S1", Source.Pool⟩,
         ⟨"token1", "S2", Source.Pool⟩, ⟨"token2", "S2", Source.Pool⟩] :=
  (attemptPlan_pool_mode wPool rfl rfl).trans (by decide)

theorem attemptPlan_single_modes_witness :
    attemptPlan wSingle = [⟨"tokenZ", "S0", Source.Specific⟩] :=
  ((attemptPlan_single_modes wSingle).1 "tokenZ" rfl (by decide)).trans (by decide)

theorem execute_empty_plan_witness :
    (executeProxiedRequest wEmpty).outcome
      = .thrown "No authentication tokens found. Please claim a token in Settings."
    ∧ (executeProxiedRequest wEmpty).calls = 0
    ∧ (executeProxiedRequest wEmpty).logged = false :=
  execute_empty_plan wEmpty (Or.inl (by decide)) (by decide)

theorem execute_success_nonjson_body_witness :
    (executeProxiedRequest wNonJson).outcome
      = .success (nonJsonBody 201) "tokenA" "S0"
    ∧ (executeProxiedRequest wNonJson).calls = 1 :=
  execute_success_nonjson_body wNonJson 0 201 (by decide) rfl (by decide)

end ApiClient
